import Mathlib

/-!
kagami: fork bootstrap, tip resolution, diff and merge.

A shallow embedding of `kagami.go`.  The program's own functions (`Remote.String`,
`Remote.ReferenceName`, `fetchRemote`, `CreateFork`, `getRemoteHead`,
`Fork.DiffRemotes`, `Fork.Merge`) are translated line by line.  The go-git
library, the network and the external `git` process are not part of the
program; they are represented by a small executable model of a repository
(`Repository`) and by an environment of oracles (`Env`).
-/

namespace Kagami

/-! ## Errors and formatting -/

/-- Go `error` values.  The named constructors are the go-git sentinels the
program can meet; `other` is any further library, transport or I/O error (for
instance "authentication required"); `errorString` is what `errors.New` and a
`fmt.Errorf` without `%w` build; `wrapError` is what `fmt.Errorf` with `%w`
builds (formatted message plus wrapped cause). -/
inductive Err where
  | ErrRepositoryAlreadyExists
  | ErrRepositoryNotExists
  | ErrRemoteExists
  | ErrRemoteNotFound
  | ErrBranchExists
  | ErrRemoteConfigEmptyName
  | ErrRemoteConfigEmptyURL
  | errBranchEmptyName
  | NoErrAlreadyUpToDate
  | ErrEmptyRemoteRepository
  | ErrReferenceNotFound
  | ErrObjectNotFound
  | ExitError (code : Nat)
  | ErrNotFound (name : String)
  | PathError (op : String) (path : String)
  | other (msg : String)
  | errorString (msg : String)
  | wrapError (msg : String) (err : Err)
deriving DecidableEq, Repr

/-- The `Error()` method. -/
def Err.Error : Err → String
  | .ErrRepositoryAlreadyExists => "repository already exists"
  | .ErrRepositoryNotExists => "repository does not exist"
  | .ErrRemoteExists => "remote already exists"
  | .ErrRemoteNotFound => "remote not found"
  | .ErrBranchExists => "branch already exists"
  | .ErrRemoteConfigEmptyName => "remote config: empty name"
  | .ErrRemoteConfigEmptyURL => "remote config: empty URL"
  | .errBranchEmptyName => "branch config: empty name"
  | .NoErrAlreadyUpToDate => "already up-to-date"
  | .ErrEmptyRemoteRepository => "remote repository is empty"
  | .ErrReferenceNotFound => "reference not found"
  | .ErrObjectNotFound => "object not found"
  | .ExitError code => "exit status " ++ toString code
  | .ErrNotFound name => "exec: \"" ++ name ++ "\": executable file not found in $PATH"
  | .PathError op path => op ++ " " ++ path ++ ": no such file or directory"
  | .other msg => msg
  | .errorString msg => msg
  | .wrapError msg _ => msg

/-- An operand of a formatting call: a string (or the `String()` of a
`Stringer`), or an error. -/
inductive Arg where
  | str (s : String)
  | err (e : Err)
deriving DecidableEq, Repr

/-- The text the verbs `%s`, `%v` and `%w` print for an operand. -/
def Arg.text : Arg → String
  | .str s => s
  | .err e => e.Error

/-- The formatting loop of `fmt.Sprintf`, on the fragment the program uses:
`%%` is a literal percent sign, any other verb prints the text of the next
operand, a verb without operand prints `%!v(MISSING)`, every other character
is copied.  (Operands left over are dropped; no call site has any.) -/
def sprintfAux : List Char → List Arg → List Char
  | [], _ => []
  | c :: rest, args =>
    if c = '%' then
      match rest, args with
      | [], _ => "%!(NOVERB)".data
      | v :: rest', [] =>
        if v = '%' then '%' :: sprintfAux rest' []
        else "%!".data ++ v :: "(MISSING)".data ++ sprintfAux rest' []
      | v :: rest', a :: args' =>
        if v = '%' then '%' :: sprintfAux rest' (a :: args')
        else a.text.data ++ sprintfAux rest' args'
    else c :: sprintfAux rest args

/-- Go `fmt.Sprintf`. -/
def Sprintf (format : String) (args : List Arg) : String :=
  String.mk (sprintfAux format.data args)

/-- The operand of the first `%w` verb of a format, when it is an error. -/
def wrapOperand : List Char → List Arg → Option Err
  | [], _ => none
  | c :: rest, args =>
    if c = '%' then
      match rest, args with
      | [], _ => none
      | _ :: _, [] => none
      | v :: rest', a :: args' =>
        if v = '%' then wrapOperand rest' (a :: args')
        else if v = 'w' then
          match a with
          | .err e => some e
          | .str _ => none
        else wrapOperand rest' args'
    else wrapOperand rest args

/-- Go `fmt.Errorf`: the message is `Sprintf format args`; with a `%w` verb
the result wraps that operand. -/
def Errorf (format : String) (args : List Arg) : Err :=
  match wrapOperand format.data args with
  | some e => .wrapError (Sprintf format args) e
  | none => .errorString (Sprintf format args)

/-! ## Remote descriptors -/

/-- The `Remote` struct (the unused `remote *git.Remote` field is left out). -/
structure Remote where
  Name : String
  Branch : String
  URL : String
  Username : String
  Password : String
deriving DecidableEq, Repr

/-- Method `Remote.ReferenceName` (a `plumbing.ReferenceName` is a string). -/
def Remote.ReferenceName (r : Remote) : String :=
  Sprintf "refs/remotes/%s/%s" [.str r.Name, .str r.Branch]

/-- Method `Remote.String`. -/
def Remote.String (r : Remote) : String :=
  Sprintf "%s/%s" [.str r.Name, .str r.Branch]

/-! ## The repository library (go-git) -/

/-- A commit, reduced to its tree: a flat list of (path, blob id). -/
structure Commit where
  Tree : List (String × String)
deriving DecidableEq, Repr

/-- A stored object: a commit, or an object of another kind (blob, tree, tag). -/
inductive Object where
  | commit (c : Commit)
  | other
deriving DecidableEq, Repr

/-- The library's `config.RemoteConfig`, with the two fields the program sets. -/
structure RemoteConfig where
  Name : String
  URLs : List String
deriving DecidableEq, Repr

/-- The library's `config.Branch`. -/
structure Branch where
  Name : String
  Remote : String
  Merge : String
deriving DecidableEq, Repr

/-- The state behind a `*git.Repository`: the two configuration maps
(`cfg.Remotes`, `cfg.Branches`), the reference store (name to hash) and the
object store.  Maps are association lists read with `List.lookup`. -/
structure Repository where
  Remotes : List (String × RemoteConfig)
  Branches : List (String × Branch)
  refs : List (String × String)
  objects : List (String × Object)
deriving DecidableEq, Repr

/-- The library's `http.BasicAuth`. -/
structure BasicAuth where
  Username : String
  Password : String
deriving DecidableEq, Repr

/-- The library's `git.FetchOptions` (the `Progress` writer carries no state
the program reads back and is left out). -/
structure FetchOptions where
  RemoteName : String
  Auth : BasicAuth
deriving DecidableEq, Repr

/-- What a remote hands over on a successful fetch: its branch heads
(branch name, commit hash) and the objects that come with them. -/
structure Advertised where
  heads : List (String × String)
  objects : List (String × Object)
deriving DecidableEq, Repr

/-- The result of an external process: exit status, output, and the
repository it leaves in its working directory when it rewrites it (`none`
when it leaves it as it was). -/
structure ProcResult where
  exitCode : Nat
  stdout : String
  stderr : String
  repo : Option Repository
deriving DecidableEq, Repr

/-- Everything outside the program and the repository state: I/O faults of
storage creation and opening, the network (URL and credentials to the
outcome of a fetch), the executables on `PATH` (name to resolved path) and
the external processes (path, arguments, working directory and the
repository found there, to the process result). -/
structure Env where
  initFault : Option Err
  openFault : Option Err
  fetch : String → BasicAuth → Except Err Advertised
  lookPath : String → Option String
  proc : String → List String → String → Option Repository → ProcResult

/-- An `exec.Cmd`: `Args` holds the command name followed by its arguments,
as in Go; `Stdout` and `Stderr` are the optional writers (buffer contents);
`lookPathErr` is the error `exec.Command` recorded when the name did not
resolve. -/
structure Cmd where
  Path : String
  Args : List String
  Dir : String
  Stdout : Option String
  Stderr : Option String
  lookPathErr : Option Err
deriving DecidableEq, Repr

/-- The world the program acts on: the repositories on disk, by path (the
directories that exist are those that hold a repository), and the external
processes started so far, oldest first. -/
structure World where
  fs : List (String × Repository)
  invoked : List Cmd
deriving DecidableEq, Repr

/-- Writing a repository's state to its path. -/
def World.store (w : World) (path : String) (repo : Repository) : World :=
  { w with fs := (path, repo) :: w.fs }

/-- The library's `git.PlainInit(path, false)`: `ErrRepositoryAlreadyExists`
when a repository is at `path`, otherwise a new empty repository there. -/
def PlainInit (env : Env) (path : String) (w : World) : Except Err Repository × World :=
  match w.fs.lookup path with
  | some _ => (.error .ErrRepositoryAlreadyExists, w)
  | none =>
    match env.initFault with
    | some err => (.error err, w)
    | none =>
      let repo : Repository := { Remotes := [], Branches := [], refs := [], objects := [] }
      (.ok repo, w.store path repo)

/-- The library's `git.PlainOpen(path)`. -/
def PlainOpen (env : Env) (path : String) (w : World) : Except Err Repository :=
  match env.openFault with
  | some err => .error err
  | none =>
    match w.fs.lookup path with
    | some repo => .ok repo
    | none => .error .ErrRepositoryNotExists

/-- The library's `RemoteConfig.Validate`. -/
def RemoteConfig.Validate (c : RemoteConfig) : Option Err :=
  if c.Name = "" then some .ErrRemoteConfigEmptyName
  else if c.URLs.length = 0 then some .ErrRemoteConfigEmptyURL
  else none

/-- The library's `Repository.CreateRemote`: validates the configuration,
answers `ErrRemoteExists` when `cfg.Remotes` already has the name (whatever
its URLs), and otherwise records the configuration. -/
def Repository.CreateRemote (repo : Repository) (c : RemoteConfig) : Option Err × Repository :=
  match c.Validate with
  | some err => (some err, repo)
  | none =>
    match repo.Remotes.lookup c.Name with
    | some _ => (some .ErrRemoteExists, repo)
    | none => (none, { repo with Remotes := (c.Name, c) :: repo.Remotes })

/-- The library's `Repository.Fetch` with the default refspec
`+refs/heads/*:refs/remotes/<name>/*`: looks the remote up by name, asks the
network, and on success points `refs/remotes/<name>/<b>` at the advertised
hash of every branch `b` and stores the objects.  `NoErrAlreadyUpToDate` is
the library's answer when no reference changes. -/
def Repository.Fetch (env : Env) (repo : Repository) (o : FetchOptions) : Option Err × Repository :=
  let name := if o.RemoteName = "" then "origin" else o.RemoteName
  match repo.Remotes.lookup name with
  | none => (some .ErrRemoteNotFound, repo)
  | some c =>
    match env.fetch (c.URLs.headD "") o.Auth with
    | .error err => (some err, repo)
    | .ok adv =>
      if adv.heads = [] then (some .ErrEmptyRemoteRepository, repo)
      else
        let updates := adv.heads.map (fun bh => ("refs/remotes/" ++ c.Name ++ "/" ++ bh.1, bh.2))
        if updates.all (fun nh => repo.refs.lookup nh.1 = some nh.2) then
          (some .NoErrAlreadyUpToDate, repo)
        else
          (none, { repo with refs := updates ++ repo.refs, objects := adv.objects ++ repo.objects })

/-- The library's `Branch.Validate` (the name check; the program's `Merge` is
always a `refs/heads/` name, which the other check accepts). -/
def Branch.Validate (b : Branch) : Option Err :=
  if b.Name = "" then some .errBranchEmptyName else none

/-- The library's `Repository.CreateBranch`: validates, answers
`ErrBranchExists` when `cfg.Branches` already has the name, and otherwise
records the branch. -/
def Repository.CreateBranch (repo : Repository) (c : Branch) : Option Err × Repository :=
  match c.Validate with
  | some err => (some err, repo)
  | none =>
    match repo.Branches.lookup c.Name with
    | some _ => (some .ErrBranchExists, repo)
    | none => (none, { repo with Branches := (c.Name, c) :: repo.Branches })

/-- The library's `Repository.Reference(name, true)`, returning the hash of
the reference (symbolic references are not modelled). -/
def Repository.Reference (repo : Repository) (name : String) : Except Err String :=
  match repo.refs.lookup name with
  | some h => .ok h
  | none => .error .ErrReferenceNotFound

/-- The library's `Repository.CommitObject`: the object stored under the
hash, when it is a commit. -/
def Repository.CommitObject (repo : Repository) (h : String) : Except Err Commit :=
  match repo.objects.lookup h with
  | some (.commit c) => .ok c
  | _ => .error .ErrObjectNotFound

/-- One entry of a patch: the file before (`From`) and after (`To`); `none`
before is an added file, `none` after a deleted one. -/
structure FilePatch where
  From : Option (String × String)
  To : Option (String × String)
deriving DecidableEq, Repr

/-- The library's `(c *Commit).Patch(to)`: the changes leading from the
receiver's tree to the tree of its argument, at file granularity (deleted and
modified files in the receiver's order, then the added files). -/
def Commit.Patch (c target : Commit) : Except Err (List FilePatch) :=
  .ok (c.Tree.filterMap (fun pb =>
        match target.Tree.lookup pb.1 with
        | none => some { From := some pb, To := none }
        | some b => if pb.2 = b then none else some { From := some pb, To := some (pb.1, b) })
      ++ target.Tree.filterMap (fun pb =>
        match c.Tree.lookup pb.1 with
        | none => some { From := none, To := some pb }
        | some _ => none))

/-- Go `exec.Command(name, arg...)`: a name without path separator is
resolved through `LookPath`; when that fails `Path` stays the name and the
failure is recorded in `Err`. -/
def Command (env : Env) (name : String) (arg : List String) : Cmd :=
  if '/' ∈ name.data then
    { Path := name, Args := name :: arg, Dir := "", Stdout := none, Stderr := none, lookPathErr := none }
  else
    match env.lookPath name with
    | some lp =>
      { Path := lp, Args := name :: arg, Dir := "", Stdout := none, Stderr := none, lookPathErr := none }
    | none =>
      { Path := name, Args := name :: arg, Dir := "", Stdout := none, Stderr := none,
        lookPathErr := some (.ErrNotFound name) }

/-- Go `(c *Cmd).Run()`.  No process is started when `exec.Command` recorded an
error or when the working directory `c.Dir` does not exist.  Otherwise the
process runs in `c.Dir`: its output is appended to the writers that are set
(output without a writer is discarded), the repository it leaves is written
to `c.Dir`, and a non-zero exit status is answered with an `ExitError`. -/
def Cmd.Run (env : Env) (c : Cmd) (w : World) : Option Err × Cmd × World :=
  match c.lookPathErr with
  | some err => (some err, c, w)
  | none =>
    if c.Dir ≠ "" ∧ (w.fs.lookup c.Dir).isNone then
      (some (.PathError "chdir" c.Dir), c, w)
    else
      let res := env.proc c.Path c.Args c.Dir (w.fs.lookup c.Dir)
      let c' : Cmd := { c with Stdout := c.Stdout.map (· ++ res.stdout),
                               Stderr := c.Stderr.map (· ++ res.stderr) }
      let w' : World := { w with invoked := w.invoked ++ [c] }
      (if res.exitCode = 0 then none else some (.ExitError res.exitCode), c',
        match res.repo with
        | some repo => w'.store c.Dir repo
        | none => w')

/-- Go `bytes.NewBuffer(make([]byte, n))`: a buffer whose contents are `n`
zero bytes. -/
def NewBuffer (n : Nat) : String :=
  String.mk (List.replicate n (Char.ofNat 0))

/-! ## The program -/

/-- The `Fork` struct; `repo` is the state of the repository the handle
points to. -/
structure Fork where
  RemoteA : Remote
  RemoteB : Remote
  repo : Repository
deriving DecidableEq, Repr

/-- Function `fetchRemote`. -/
def fetchRemote (env : Env) (remote : Remote) (repo : Repository) : Option Err × Repository :=
  let remConf : RemoteConfig := { Name := remote.Name, URLs := [remote.URL] }
  match repo.CreateRemote remConf with
  | (some err, repo) => (some err, repo)
  | (none, repo) =>
    let fetchOpts : FetchOptions :=
      { RemoteName := remote.Name,
        Auth := { Username := remote.Username, Password := remote.Password } }
    match repo.Fetch env fetchOpts with
    | (some err, repo) => (some err, repo)
    | (none, repo) => (none, repo)

/-- The first statement of `CreateFork`: `PlainInit`, and `PlainOpen` when
the repository already exists. -/
def openOrInit (env : Env) (w : World) : Except Err Repository × World :=
  match PlainInit env "./sandbox/fork" w with
  | (.ok repo, w) => (.ok repo, w)
  | (.error err, w) =>
    if err ≠ .ErrRepositoryAlreadyExists then (.error err, w)
    else
      match PlainOpen env "./sandbox/fork" w with
      | .ok repo => (.ok repo, w)
      | .error err => (.error err, w)

/-- Function `CreateFork`.  The library writes every change through to disk,
so the world returned holds the repository as it stands at the return. -/
def CreateFork (env : Env) (remoteA remoteB : Remote) (w : World) : Except Err Fork × World :=
  match openOrInit env w with
  | (.error err, w) => (.error err, w)
  | (.ok repo, w) =>
    match fetchRemote env remoteA repo with
    | (errA, repo) =>
      match errA.filter (· ≠ .ErrRemoteExists) with
      | some err =>
        (.error (Errorf "failed to fetch remote \"%s\": %w" [.str remoteA.Name, .err err]),
          w.store "./sandbox/fork" repo)
      | none =>
        match fetchRemote env remoteB repo with
        | (errB, repo) =>
          match errB.filter (· ≠ .ErrRemoteExists) with
          | some err =>
            (.error (Errorf "failed to fetch remote \"%s\": %w" [.str remoteB.Name, .err err]),
              w.store "./sandbox/fork" repo)
          | none =>
            let branchConf : Branch :=
              { Name := remoteB.Branch, Remote := remoteB.Name,
                Merge := "refs/heads/" ++ remoteB.Branch }
            match repo.CreateBranch branchConf with
            | (some err, repo) =>
              (.error (Errorf "failed to create tracking branch: %w" [.err err]),
                w.store "./sandbox/fork" repo)
            | (none, repo) =>
              (.ok { RemoteA := remoteA, RemoteB := remoteB, repo := repo },
                w.store "./sandbox/fork" repo)

/-- Function `getRemoteHead`. -/
def getRemoteHead (remote : Remote) (repo : Repository) : Except Err Commit :=
  match repo.Reference remote.ReferenceName with
  | .error _ => .error (Errorf "failed to resolve branch \"%s\"" [.str remote.String])
  | .ok ref =>
    match repo.CommitObject ref with
    | .error _ => .error (Errorf "failed to resolve commit for \"%s\"" [.str remote.String])
    | .ok commit => .ok commit

/-- Method `Fork.DiffRemotes`. -/
def Fork.DiffRemotes (f : Fork) : Except Err (List FilePatch) :=
  match getRemoteHead f.RemoteA f.repo with
  | .error err => .error err
  | .ok commitA =>
    match getRemoteHead f.RemoteB f.repo with
    | .error err => .error err
    | .ok commitB => commitB.Patch commitA

/-- Method `Fork.Merge`.  The pair is Go's `(string, error)`. -/
def Fork.Merge (env : Env) (f : Fork) (dryRun : Bool) (w : World) :
    (String × Option Err) × World :=
  let out := NewBuffer 1024
  let mergeCmd :=
    if dryRun then Command env "git" ["merge", "--no-commit", "--no-ff", f.RemoteA.String]
    else Command env "git" ["merge", f.RemoteA.String]
  let mergeCmd := { mergeCmd with Dir := "./sandbox/fork" }
  match mergeCmd.Run env w with
  | (some _, _, w) => (("", some (.errorString out)), w)
  | (none, _, w) => ((out, none), w)

/-! ## Sample data -/

def github : Remote :=
  { Name := "github", Branch := "master", URL := "https://github.com/eriktate/kagami-test.git",
    Username := "eriktate", Password := "token-a" }

def gitlab : Remote :=
  { Name := "gitlab", Branch := "master", URL := "https://gitlab.com/eriktate/kagami-test.git",
    Username := "eriktate", Password := "token-b" }

def commit1 : Commit := { Tree := [("README.md", "blob-r1")] }

def commit2 : Commit := { Tree := [("README.md", "blob-r1"), ("x.txt", "blob-x1")] }

/-- A network on which GitHub's `master` is at `commit2` and GitLab's at
`commit1`, and a merge process that reports a clean result. -/
def goodEnv : Env :=
  { initFault := none, openFault := none,
    fetch := fun url _ =>
      if url = "https://github.com/eriktate/kagami-test.git" then
        .ok { heads := [("master", "c2")], objects := [("c2", .commit commit2), ("c1", .commit commit1)] }
      else if url = "https://gitlab.com/eriktate/kagami-test.git" then
        .ok { heads := [("master", "c1")], objects := [("c1", .commit commit1)] }
      else .error (.other "repository not found"),
    lookPath := fun name => if name = "git" then some "/usr/bin/git" else none,
    proc := fun _ _ _ _ =>
      { exitCode := 0, stdout := "Already up to date.\n", stderr := "", repo := none } }

/-- A network that rejects the credentials of every fetch. -/
def lockedEnv : Env :=
  { goodEnv with fetch := fun _ _ => .error (.other "authentication required") }

/-- A network that rejects the credentials for GitLab only. -/
def halfLockedEnv : Env :=
  { goodEnv with
    fetch := fun url auth =>
      if url = "https://gitlab.com/eriktate/kagami-test.git" then
        .error (.other "authentication required")
      else goodEnv.fetch url auth }

/-- The repository after a first bootstrap on `goodEnv`. -/
def sampleRepo : Repository :=
  { Remotes := [("gitlab", { Name := "gitlab", URLs := ["https://gitlab.com/eriktate/kagami-test.git"] }),
                ("github", { Name := "github", URLs := ["https://github.com/eriktate/kagami-test.git"] })],
    Branches := [("master", { Name := "master", Remote := "gitlab", Merge := "refs/heads/master" })],
    refs := [("refs/remotes/gitlab/master", "c1"), ("refs/remotes/github/master", "c2")],
    objects := [("c1", .commit commit1), ("c2", .commit commit2), ("c1", .commit commit1)] }

/-- A merge process that stops on a conflict. -/
def conflictEnv : Env :=
  { goodEnv with
    proc := fun _ _ _ _ =>
      { exitCode := 1,
        stdout := "CONFLICT (content): Merge conflict in x.txt\n", stderr := "",
        repo := some sampleRepo } }

/-- An environment without `git` on `PATH`. -/
def noGitEnv : Env :=
  { goodEnv with lookPath := fun _ => none }

def sampleFork : Fork := { RemoteA := github, RemoteB := gitlab, repo := sampleRepo }

/-- A repository in which GitHub is registered and nothing was fetched. -/
def registeredRepo : Repository :=
  { Remotes := [("github", { Name := "github", URLs := ["https://github.com/eriktate/kagami-test.git"] })],
    Branches := [], refs := [], objects := [] }

/-- A repository whose GitHub reference points at an object that is not a commit. -/
def blobRepo : Repository :=
  { sampleRepo with objects := [("c2", .other), ("c1", .commit commit1)] }

def emptyRepo : Repository := { Remotes := [], Branches := [], refs := [], objects := [] }

def emptyWorld : World := { fs := [], invoked := [] }

/-- A disk that holds `sampleRepo` in the fork directory. -/
def sampleWorld : World := { fs := [("./sandbox/fork", sampleRepo)], invoked := [] }

/-- A disk that holds `registeredRepo` in the fork directory. -/
def registeredWorld : World := { fs := [("./sandbox/fork", registeredRepo)], invoked := [] }


/-! ## Formatting lemmas -/

theorem string_eq (r : Remote) : r.String = r.Name ++ "/" ++ r.Branch := by
  simp [Remote.String, Sprintf, sprintfAux, Arg.text]
  apply String.ext; simp

theorem referenceName_eq (r : Remote) :
    r.ReferenceName = "refs/remotes/" ++ r.Name ++ "/" ++ r.Branch := by
  simp [Remote.ReferenceName, Sprintf, sprintfAux, Arg.text]
  apply String.ext; simp

/-- Two lists split at the first occurrence of the same separator agree part by part. -/
theorem split_at_sep {α : Type} (a : α) :
    ∀ (l1 l2 r1 r2 : List α), a ∉ l1 → a ∉ l2 → l1 ++ a :: r1 = l2 ++ a :: r2 →
      l1 = l2 ∧ r1 = r2
  | [], [], _, _, _, _, h => by simpa using h
  | [], y :: l2, _, _, _, h2, h => by
    simp at h
    exact absurd h.1 (fun e => h2 (by simp [e]))
  | x :: l1, [], _, _, h1, _, h => by
    simp at h
    exact absurd h.1 (fun e => h1 (by simp [e]))
  | x :: l1, y :: l2, r1, r2, h1, h2, h => by
    simp at h
    have ih := split_at_sep a l1 l2 r1 r2 (fun m => h1 (by simp [m])) (fun m => h2 (by simp [m])) h.2
    simp [h.1, ih.1, ih.2]

theorem slash_mem_string (r : Remote) : '/' ∈ r.String.data := by
  rw [string_eq]; simp

/-! ## Lemmas on the formatted errors -/

theorem errorf_branch (s : String) :
    Errorf "failed to resolve branch \"%s\"" [.str s]
      = .errorString ("failed to resolve branch \"" ++ s ++ "\"") := by
  simp [Errorf, wrapOperand, Sprintf, sprintfAux, Arg.text]
  apply String.ext; simp

theorem errorf_commit (s : String) :
    Errorf "failed to resolve commit for \"%s\"" [.str s]
      = .errorString ("failed to resolve commit for \"" ++ s ++ "\"") := by
  simp [Errorf, wrapOperand, Sprintf, sprintfAux, Arg.text]
  apply String.ext; simp

theorem errorf_fetch (name : String) (e : Err) :
    Errorf "failed to fetch remote \"%s\": %w" [.str name, .err e]
      = .wrapError ("failed to fetch remote \"" ++ name ++ "\": " ++ e.Error) e := by
  simp [Errorf, wrapOperand, Sprintf, sprintfAux, Arg.text]
  apply String.ext; simp

theorem errorf_tracking (e : Err) :
    Errorf "failed to create tracking branch: %w" [.err e]
      = .wrapError ("failed to create tracking branch: " ++ e.Error) e := by
  simp [Errorf, wrapOperand, Sprintf, sprintfAux, Arg.text]
  apply String.ext; simp

/-! ## Lemmas on the library model -/

theorem createRemote_registered (repo : Repository) (c : RemoteConfig) (hn : c.Name ≠ "")
    (hu : c.URLs ≠ []) (x : RemoteConfig) (hx : repo.Remotes.lookup c.Name = some x) :
    repo.CreateRemote c = (some .ErrRemoteExists, repo) := by
  simp [Repository.CreateRemote, RemoteConfig.Validate, hn, hu, hx]

theorem createBranch_registered (repo : Repository) (c : Branch) (hn : c.Name ≠ "")
    (x : Branch) (hx : repo.Branches.lookup c.Name = some x) :
    repo.CreateBranch c = (some .ErrBranchExists, repo) := by
  simp [Repository.CreateBranch, Branch.Validate, hn, hx]

theorem createBranch_ok (repo repo' : Repository) (c : Branch)
    (h : repo.CreateBranch c = (none, repo')) :
    c.Name ≠ "" ∧ repo'.Branches.lookup c.Name = some c ∧ repo'.Remotes = repo.Remotes := by
  unfold Repository.CreateBranch Branch.Validate at h
  by_cases hn : c.Name = ""
  · simp [hn] at h
  · simp only [hn, if_false] at h
    cases hl : repo.Branches.lookup c.Name with
    | some x => rw [hl] at h; simp at h
    | none =>
      rw [hl] at h
      simp only [Prod.mk.injEq, true_and] at h
      subst h
      simp [hn, List.lookup]

/-- The function `fetchRemote` on a name that is registered already. -/
theorem fetchRemote_registered (env : Env) (remote : Remote) (repo : Repository)
    (hn : remote.Name ≠ "") (x : RemoteConfig) (hx : repo.Remotes.lookup remote.Name = some x) :
    fetchRemote env remote repo = (some .ErrRemoteExists, repo) := by
  unfold fetchRemote
  simp only
  rw [createRemote_registered repo _ hn (by simp) x hx]

/-- The library's `Fetch` touches neither configuration map. -/
theorem fetch_config (env : Env) (repo : Repository) (o : FetchOptions) :
    (repo.Fetch env o).2.Remotes = repo.Remotes ∧ (repo.Fetch env o).2.Branches = repo.Branches := by
  unfold Repository.Fetch
  simp only
  split
  · exact ⟨rfl, rfl⟩
  · split
    · exact ⟨rfl, rfl⟩
    · split
      · exact ⟨rfl, rfl⟩
      · split <;> exact ⟨rfl, rfl⟩

theorem createRemote_branches (repo : Repository) (c : RemoteConfig) :
    (repo.CreateRemote c).2.Branches = repo.Branches := by
  unfold Repository.CreateRemote
  split
  · rfl
  · split <;> rfl

/-- The function `fetchRemote` never touches the branch configuration. -/
theorem fetchRemote_branches (env : Env) (remote : Remote) (repo : Repository) :
    (fetchRemote env remote repo).2.Branches = repo.Branches := by
  unfold fetchRemote
  simp only
  have h1 := createRemote_branches repo { Name := remote.Name, URLs := [remote.URL] }
  rcases hc : repo.CreateRemote { Name := remote.Name, URLs := [remote.URL] } with ⟨e, r1⟩
  rw [hc] at h1
  cases e with
  | some err => exact h1
  | none =>
    simp only
    have h2 := (fetch_config env r1 ⟨remote.Name, ⟨remote.Username, remote.Password⟩⟩).2
    rcases hf : r1.Fetch env ⟨remote.Name, ⟨remote.Username, remote.Password⟩⟩ with ⟨e2, r2⟩
    rw [hf] at h2
    cases e2 <;> simp only <;> rw [h2] <;> exact h1

/-- What `fetchRemote` does to the remote configuration: nothing (the name is
empty, or registered already), or one new entry under the remote's name. -/
theorem fetchRemote_remotes (env : Env) (remote : Remote) (repo : Repository) :
    (remote.Name = "" ∧ fetchRemote env remote repo = (some .ErrRemoteConfigEmptyName, repo)) ∨
    (remote.Name ≠ "" ∧ (∃ x, repo.Remotes.lookup remote.Name = some x) ∧
      fetchRemote env remote repo = (some .ErrRemoteExists, repo)) ∨
    (remote.Name ≠ "" ∧ repo.Remotes.lookup remote.Name = none ∧
      (fetchRemote env remote repo).2.Remotes
        = (remote.Name, { Name := remote.Name, URLs := [remote.URL] }) :: repo.Remotes) := by
  by_cases hn : remote.Name = ""
  · left
    refine ⟨hn, ?_⟩
    simp [fetchRemote, Repository.CreateRemote, RemoteConfig.Validate, hn]
  · right
    cases hl : repo.Remotes.lookup remote.Name with
    | some x => exact Or.inl ⟨hn, ⟨x, rfl⟩, fetchRemote_registered env remote repo hn x hl⟩
    | none =>
      right
      refine ⟨hn, rfl, ?_⟩
      have hc : repo.CreateRemote { Name := remote.Name, URLs := [remote.URL] }
          = (none, { repo with Remotes :=
              (remote.Name, { Name := remote.Name, URLs := [remote.URL] }) :: repo.Remotes }) := by
        simp [Repository.CreateRemote, RemoteConfig.Validate, hn, hl]
      unfold fetchRemote
      simp only [hc]
      have h2 := (fetch_config env { repo with Remotes :=
        (remote.Name, { Name := remote.Name, URLs := [remote.URL] }) :: repo.Remotes }
        ⟨remote.Name, ⟨remote.Username, remote.Password⟩⟩).1
      rcases hf : Repository.Fetch env { repo with Remotes :=
        (remote.Name, { Name := remote.Name, URLs := [remote.URL] }) :: repo.Remotes }
        ⟨remote.Name, ⟨remote.Username, remote.Password⟩⟩ with ⟨e2, r2⟩
      rw [hf] at h2
      cases e2 <;> simp only <;> exact h2

/-- When `CreateFork` lets the result of `fetchRemote` pass, the remote's name
is not empty and is registered afterwards. -/
theorem fetchRemote_tolerated (env : Env) (remote : Remote) (repo : Repository)
    (h : (fetchRemote env remote repo).1.filter (· ≠ .ErrRemoteExists) = none) :
    remote.Name ≠ "" ∧ ∃ x, (fetchRemote env remote repo).2.Remotes.lookup remote.Name = some x := by
  rcases fetchRemote_remotes env remote repo with ⟨_, h1⟩ | ⟨hn, ⟨x, hx⟩, h1⟩ | ⟨hn, _, h1⟩
  · rw [h1] at h; simp [Option.filter] at h
  · exact ⟨hn, x, by rw [h1]; exact hx⟩
  · exact ⟨hn, { Name := remote.Name, URLs := [remote.URL] }, by rw [h1]; simp [List.lookup]⟩

/-- A registered name stays registered through `fetchRemote`. -/
theorem fetchRemote_keeps (env : Env) (remote : Remote) (repo : Repository) (n : String)
    (h : ∃ x, repo.Remotes.lookup n = some x) :
    ∃ x, (fetchRemote env remote repo).2.Remotes.lookup n = some x := by
  rcases fetchRemote_remotes env remote repo with ⟨_, h1⟩ | ⟨_, _, h1⟩ | ⟨_, _, h1⟩
  · rw [h1]; exact h
  · rw [h1]; exact h
  · rw [h1]
    obtain ⟨x, hx⟩ := h
    by_cases e : n = remote.Name
    · exact ⟨{ Name := remote.Name, URLs := [remote.URL] }, by simp [List.lookup, e]⟩
    · refine ⟨x, ?_⟩
      simp only [List.lookup]
      have : (n == remote.Name) = false := by simpa using e
      rw [this]; exact hx

/-- Another name's registration is not changed by `fetchRemote`. -/
theorem fetchRemote_other (env : Env) (remote : Remote) (repo : Repository) (n : String)
    (e : n ≠ remote.Name) :
    (fetchRemote env remote repo).2.Remotes.lookup n = repo.Remotes.lookup n := by
  rcases fetchRemote_remotes env remote repo with ⟨_, h1⟩ | ⟨_, _, h1⟩ | ⟨_, _, h1⟩
  · rw [h1]
  · rw [h1]
  · rw [h1]
    simp only [List.lookup]
    have : (n == remote.Name) = false := by simpa using e
    rw [this]

/-- Opening storage that is already on disk. -/
theorem openOrInit_existing (env : Env) (w : World) (repo : Repository)
    (h : w.fs.lookup "./sandbox/fork" = some repo) :
    openOrInit env w =
      match env.openFault with
      | some err => (.error err, w)
      | none => (.ok repo, w) := by
  unfold openOrInit PlainInit PlainOpen
  simp only [h]
  cases env.openFault <;> simp

theorem store_lookup (w : World) (path : String) (repo : Repository) :
    (w.store path repo).fs.lookup path = some repo := by
  simp [World.store, List.lookup]

/-- The body of `CreateFork` once storage is open, as one equation. -/
theorem createFork_eq (env : Env) (remoteA remoteB : Remote) (w w0 : World) (repo0 : Repository)
    (ho : openOrInit env w = (.ok repo0, w0)) :
    CreateFork env remoteA remoteB w =
      match (fetchRemote env remoteA repo0).1.filter (· ≠ .ErrRemoteExists) with
      | some err =>
        (.error (Errorf "failed to fetch remote \"%s\": %w" [.str remoteA.Name, .err err]),
          w0.store "./sandbox/fork" (fetchRemote env remoteA repo0).2)
      | none =>
        match (fetchRemote env remoteB (fetchRemote env remoteA repo0).2).1.filter
            (· ≠ .ErrRemoteExists) with
        | some err =>
          (.error (Errorf "failed to fetch remote \"%s\": %w" [.str remoteB.Name, .err err]),
            w0.store "./sandbox/fork" (fetchRemote env remoteB (fetchRemote env remoteA repo0).2).2)
        | none =>
          match (fetchRemote env remoteB (fetchRemote env remoteA repo0).2).2.CreateBranch
              { Name := remoteB.Branch, Remote := remoteB.Name,
                Merge := "refs/heads/" ++ remoteB.Branch } with
          | (some err, repo) =>
            (.error (Errorf "failed to create tracking branch: %w" [.err err]),
              w0.store "./sandbox/fork" repo)
          | (none, repo) =>
            (.ok { RemoteA := remoteA, RemoteB := remoteB, repo := repo },
              w0.store "./sandbox/fork" repo) := by
  unfold CreateFork
  rw [ho]

/-! ## Theorems -/

/-- C10: `ReferenceName()` is `"refs/remotes/" ++ name ++ "/" ++ branch`, and two
descriptors with the same name and branch but any URL, username and password
have the same tracking reference. -/
theorem referenceName_spec (name branch url1 user1 pass1 url2 user2 pass2 : String) :
    (Remote.mk name branch url1 user1 pass1).ReferenceName
        = "refs/remotes/" ++ name ++ "/" ++ branch ∧
      (Remote.mk name branch url1 user1 pass1).ReferenceName
        = (Remote.mk name branch url2 user2 pass2).ReferenceName := by
  constructor
  · exact referenceName_eq _
  · rw [referenceName_eq, referenceName_eq]

/-- C9, as stated, fails: the descriptors ("a/b", "c") and ("a", "b/c") have the
same display form "a/b/c" and different names and branches. -/
theorem string_not_injective :
    (Remote.mk "a/b" "c" "" "" "").String = (Remote.mk "a" "b/c" "" "" "").String ∧
      (Remote.mk "a/b" "c" "" "" "").String = "a/b/c" ∧
      (Remote.mk "a/b" "c" "" "" "").Name ≠ (Remote.mk "a" "b/c" "" "" "").Name ∧
      (Remote.mk "a/b" "c" "" "" "").Branch ≠ (Remote.mk "a" "b/c" "" "" "").Branch := by
  decide

/-- C9, amended: the display form is `name ++ "/" ++ branch`, and among
descriptors whose names contain no `/` it determines name and branch. -/
theorem string_injective (r1 r2 : Remote) (h1 : '/' ∉ r1.Name.data) (h2 : '/' ∉ r2.Name.data)
    (h : r1.String = r2.String) :
    r1.String = r1.Name ++ "/" ++ r1.Branch ∧ r1.Name = r2.Name ∧ r1.Branch = r2.Branch := by
  refine ⟨string_eq r1, ?_⟩
  rw [string_eq, string_eq] at h
  have hd := congrArg String.data h
  simp at hd
  have := split_at_sep '/' _ _ _ _ h1 h2 hd
  exact ⟨String.ext this.1, String.ext this.2⟩

theorem string_injective_witness :
    github.String = github.Name ++ "/" ++ github.Branch ∧ github.Name = github.Name ∧
      github.Branch = github.Branch :=
  string_injective github github (by decide) (by decide) rfl

/-- What `Merge` hands back does not depend on the output of the process:
it is the initial contents of the buffer, 1024 zero bytes. -/
theorem merge_result (env : Env) (f : Fork) (dryRun : Bool) (w : World) :
    (f.Merge env dryRun w).1 = (NewBuffer 1024, none) ∨
      (f.Merge env dryRun w).1 = ("", some (.errorString (NewBuffer 1024))) := by
  unfold Fork.Merge
  simp only
  split
  · exact Or.inr rfl
  · exact Or.inl rfl

theorem newBuffer_length (n : Nat) : (NewBuffer n).length = n := by
  simp [NewBuffer, String.length]

/-- C5 fails on the code: in the fork directory, with `git` on `PATH`, a process
that prints "Already up to date." and exits with 0 is run, and `Merge` returns
1024 zero bytes, not that output; with a process that prints a conflict report
and exits with 1, the message of the error is again 1024 zero bytes. -/
theorem merge_drops_output :
    (goodEnv.proc "/usr/bin/git" ["git", "merge", "github/master"] "./sandbox/fork"
        (some sampleRepo)).stdout = "Already up to date.\n" ∧
      (sampleFork.Merge goodEnv false sampleWorld).1 = (NewBuffer 1024, none) ∧
      NewBuffer 1024 ≠ "Already up to date.\n" ∧
      (conflictEnv.proc "/usr/bin/git" ["git", "merge", "github/master"] "./sandbox/fork"
        (some sampleRepo)).stdout = "CONFLICT (content): Merge conflict in x.txt\n" ∧
      ((sampleFork.Merge conflictEnv false sampleWorld).1.2.map Err.Error)
        = some (NewBuffer 1024) ∧
      NewBuffer 1024 ≠ "CONFLICT (content): Merge conflict in x.txt\n" ∧
      (sampleFork.Merge goodEnv false sampleWorld).2.invoked
        = [{ Path := "/usr/bin/git", Args := ["git", "merge", "github/master"],
             Dir := "./sandbox/fork", Stdout := none, Stderr := none, lookPathErr := none }] ∧
      (sampleFork.Merge conflictEnv false sampleWorld).2.invoked
        = [{ Path := "/usr/bin/git", Args := ["git", "merge", "github/master"],
             Dir := "./sandbox/fork", Stdout := none, Stderr := none, lookPathErr := none }] := by
  refine ⟨rfl, rfl, ?_, rfl, rfl, ?_, rfl, rfl⟩
  · intro h
    have := congrArg String.length h
    rw [newBuffer_length] at this
    exact absurd this (by decide)
  · intro h
    have := congrArg String.length h
    rw [newBuffer_length] at this
    exact absurd this (by decide)

/-- With `git` on `PATH` and the fork directory on disk, `Merge` starts one
process: the command below.  The process may rewrite the repository. -/
theorem merge_started (env : Env) (f : Fork) (dryRun : Bool) (w : World) (bin : String)
    (repo : Repository) (hb : env.lookPath "git" = some bin)
    (hd : w.fs.lookup "./sandbox/fork" = some repo) :
    (f.Merge env dryRun w).2.invoked = w.invoked ++
      [{ Path := bin,
         Args := "git" :: (if dryRun = true then
             ["merge", "--no-commit", "--no-ff", f.RemoteA.String]
           else ["merge", f.RemoteA.String]),
         Dir := "./sandbox/fork", Stdout := none, Stderr := none, lookPathErr := none }] := by
  have hg : ¬ '/' ∈ "git".data := by decide
  cases dryRun <;> simp only [Fork.Merge, Cmd.Run, Command, hg, if_false, hb, hd] <;>
    simp <;> split <;>
    (rename_i h; simp only [Prod.mk.injEq] at h; obtain ⟨_, _, rfl⟩ := h;
     cases (env.proc bin _ "./sandbox/fork" (some repo)).repo <;> simp [World.store])

/-- Without `git` on `PATH`, or without the fork directory, `Merge` starts no
process, leaves the world as it is and returns an error. -/
theorem merge_not_started (env : Env) (f : Fork) (dryRun : Bool) (w : World)
    (h : env.lookPath "git" = none ∨ w.fs.lookup "./sandbox/fork" = none) :
    f.Merge env dryRun w = (("", some (.errorString (NewBuffer 1024))), w) := by
  have hg : ¬ '/' ∈ "git".data := by decide
  rcases h with h | h
  · cases dryRun <;> simp [Fork.Merge, Cmd.Run, Command, hg, h]
  · cases hl : env.lookPath "git" <;> cases dryRun <;>
      simp [Fork.Merge, Cmd.Run, Command, hg, h, hl]

/-- C6, as stated, fails: without `git` on `PATH`, and likewise without the
fork directory on disk, `Merge` starts no external command at all and returns
an error. -/
theorem merge_no_command :
    noGitEnv.lookPath "git" = none ∧
      (sampleFork.Merge noGitEnv true sampleWorld).2.invoked = [] ∧
      (sampleFork.Merge noGitEnv false sampleWorld).2.invoked = [] ∧
      (sampleFork.Merge noGitEnv false sampleWorld).1.2.isSome = true ∧
      emptyWorld.fs.lookup "./sandbox/fork" = none ∧
      (sampleFork.Merge goodEnv true emptyWorld).2.invoked = [] ∧
      (sampleFork.Merge goodEnv false emptyWorld).2.invoked = [] ∧
      (sampleFork.Merge goodEnv false emptyWorld).1.2.isSome = true :=
  ⟨rfl, rfl, rfl, rfl, rfl, rfl, rfl, rfl⟩

/-- C6, amended: when `git` resolves on `PATH` (to `bin`) and the directory
"./sandbox/fork" is on disk, `Merge` starts exactly one external command, `bin`
in "./sandbox/fork", with arguments merge, --no-commit, --no-ff, name/branch
of remote A when `dryRun` is true and merge, name/branch of remote A when it
is false; the two flags are among the arguments exactly when `dryRun` is true.
When `git` does not resolve or the directory is missing, no command is
started, the world is unchanged and `Merge` returns an error. -/
theorem merge_command (env : Env) (f : Fork) (dryRun : Bool) (w : World) :
    (∀ bin repo, env.lookPath "git" = some bin → w.fs.lookup "./sandbox/fork" = some repo →
      ∃ c : Cmd, (f.Merge env dryRun w).2.invoked = w.invoked ++ [c] ∧
        c.Path = bin ∧ c.Dir = "./sandbox/fork" ∧
        c.Args = "git" ::
          (if dryRun = true then
            ["merge", "--no-commit", "--no-ff", f.RemoteA.Name ++ "/" ++ f.RemoteA.Branch]
          else ["merge", f.RemoteA.Name ++ "/" ++ f.RemoteA.Branch]) ∧
        ("--no-commit" ∈ c.Args ↔ dryRun = true) ∧ ("--no-ff" ∈ c.Args ↔ dryRun = true)) ∧
    ((env.lookPath "git" = none ∨ w.fs.lookup "./sandbox/fork" = none) →
      (f.Merge env dryRun w).2 = w ∧ ∃ e, (f.Merge env dryRun w).1.2 = some e) := by
  constructor
  · intro bin repo hb hd
    have hs := slash_mem_string f.RemoteA
    have e1 : "--no-commit" ≠ f.RemoteA.String := fun e => by
      rw [← e] at hs; exact absurd hs (by decide)
    have e2 : "--no-ff" ≠ f.RemoteA.String := fun e => by
      rw [← e] at hs; exact absurd hs (by decide)
    rw [merge_started env f dryRun w bin repo hb hd]
    refine ⟨_, rfl, rfl, rfl, ?_, ?_, ?_⟩
    · rw [string_eq]
    · cases dryRun <;> simp [e1]
    · cases dryRun <;> simp [e2]
  · intro h
    rw [merge_not_started env f dryRun w h]
    exact ⟨rfl, _, rfl⟩

theorem merge_command_witness :
    (goodEnv.lookPath "git" = some "/usr/bin/git" ∧
      sampleWorld.fs.lookup "./sandbox/fork" = some sampleRepo ∧
      ∃ c : Cmd, (sampleFork.Merge goodEnv true sampleWorld).2.invoked
          = sampleWorld.invoked ++ [c] ∧
        c.Path = "/usr/bin/git" ∧ c.Dir = "./sandbox/fork" ∧
        c.Args = "git" ::
          (if true = true then
            ["merge", "--no-commit", "--no-ff", sampleFork.RemoteA.Name ++ "/" ++ sampleFork.RemoteA.Branch]
          else ["merge", sampleFork.RemoteA.Name ++ "/" ++ sampleFork.RemoteA.Branch]) ∧
        ("--no-commit" ∈ c.Args ↔ true = true) ∧ ("--no-ff" ∈ c.Args ↔ true = true)) ∧
    ((noGitEnv.lookPath "git" = none ∨ sampleWorld.fs.lookup "./sandbox/fork" = none) ∧
      (sampleFork.Merge noGitEnv false sampleWorld).2 = sampleWorld ∧
      ∃ e, (sampleFork.Merge noGitEnv false sampleWorld).1.2 = some e) :=
  ⟨⟨rfl, rfl, (merge_command goodEnv sampleFork true sampleWorld).1 _ _ rfl rfl⟩,
    ⟨Or.inl rfl, (merge_command noGitEnv sampleFork false sampleWorld).2 (Or.inl rfl)⟩⟩

/-- With storage that fails to open, `CreateFork` returns that failure. -/
theorem createFork_open_error (env : Env) (remoteA remoteB : Remote) (w w0 : World) (err : Err)
    (ho : openOrInit env w = (.error err, w0)) :
    CreateFork env remoteA remoteB w = (.error err, w0) := by
  unfold CreateFork
  rw [ho]

/-- C1 fails on the code: after any successful `CreateFork(A, B)`, a second
`CreateFork(A, B)` on the world the first one left never succeeds, whatever
the network answers; unless opening the storage itself fails, the error is
"failed to create tracking branch: branch already exists". -/
theorem createFork_rerun_fails (env env' : Env) (remoteA remoteB : Remote) (w w' : World)
    (f : Fork) (h : CreateFork env remoteA remoteB w = (.ok f, w')) :
    ∃ e, (CreateFork env' remoteA remoteB w').1 = .error e ∧
      (env'.openFault = none →
        e = .wrapError "failed to create tracking branch: branch already exists"
              .ErrBranchExists) := by
  rcases ho : openOrInit env w with ⟨r0, w0⟩
  cases r0 with
  | error err => rw [createFork_open_error env remoteA remoteB w w0 err ho] at h; simp at h
  | ok repo0 =>
    rw [createFork_eq env remoteA remoteB w w0 repo0 ho] at h
    cases hA : (fetchRemote env remoteA repo0).1.filter (· ≠ .ErrRemoteExists) with
    | some err => rw [hA] at h; simp at h
    | none =>
      rw [hA] at h
      simp only at h
      cases hB : (fetchRemote env remoteB (fetchRemote env remoteA repo0).2).1.filter
          (· ≠ .ErrRemoteExists) with
      | some err => rw [hB] at h; simp at h
      | none =>
        rw [hB] at h
        simp only at h
        rcases hc : (fetchRemote env remoteB (fetchRemote env remoteA repo0).2).2.CreateBranch
            { Name := remoteB.Branch, Remote := remoteB.Name,
              Merge := "refs/heads/" ++ remoteB.Branch } with ⟨eb, repo⟩
        rw [hc] at h
        cases eb with
        | some err => simp at h
        | none =>
          simp only [Prod.mk.injEq, Except.ok.injEq] at h
          obtain ⟨hf, hw⟩ := h
          obtain ⟨hbn, hbl, hrem⟩ := createBranch_ok _ _ _ hc
          obtain ⟨hAn, hAreg⟩ := fetchRemote_tolerated env remoteA repo0 hA
          obtain ⟨hBn, xB, hBreg⟩ := fetchRemote_tolerated env remoteB _ hB
          obtain ⟨xA, hAreg'⟩ := fetchRemote_keeps env remoteB _ remoteA.Name hAreg
          rw [← hrem] at hAreg' hBreg
          have hlook : w'.fs.lookup "./sandbox/fork" = some repo := by
            rw [← hw]; exact store_lookup _ _ _
          have hopen := openOrInit_existing env' w' repo hlook
          cases hfault : env'.openFault with
          | some err =>
            rw [hfault] at hopen
            refine ⟨err, ?_, fun hx => by simp at hx⟩
            rw [createFork_open_error env' remoteA remoteB w' w' err hopen]
          | none =>
            rw [hfault] at hopen
            refine ⟨_, ?_, fun _ => rfl⟩
            rw [createFork_eq env' remoteA remoteB w' w' repo hopen,
              fetchRemote_registered env' remoteA repo hAn xA hAreg']
            simp only [Option.filter, ne_eq, not_true_eq_false, decide_False]
            rw [fetchRemote_registered env' remoteB repo hBn xB hBreg]
            simp only [Option.filter, ne_eq, not_true_eq_false, decide_False]
            rw [createBranch_registered repo _ hbn _ hbl]
            simp only [Bool.false_eq_true, if_false, errorf_tracking]
            rfl

theorem createFork_rerun_fails_witness :
    CreateFork goodEnv github gitlab emptyWorld
        = (.ok sampleFork, (emptyWorld.store "./sandbox/fork" emptyRepo).store
            "./sandbox/fork" sampleRepo) ∧
      ∃ e, (CreateFork goodEnv github gitlab
          ((emptyWorld.store "./sandbox/fork" emptyRepo).store "./sandbox/fork" sampleRepo)).1
          = .error e ∧
        (goodEnv.openFault = none →
          e = .wrapError "failed to create tracking branch: branch already exists"
                .ErrBranchExists) :=
  ⟨rfl, createFork_rerun_fails goodEnv goodEnv github gitlab emptyWorld _ sampleFork rfl⟩

/-- C2 fails on the code.  A first run whose fetch of GitHub is rejected leaves
GitHub registered and not fetched.  A second run on a working network then
returns a Fork without error, yet `fetchRemote` stopped at "remote already
exists" before fetching: GitHub's tracking reference is missing from the
Fork's repository, although the network advertises its tip, and `DiffRemotes`
fails on it. -/
theorem createFork_unfetched_remote :
    (CreateFork lockedEnv github gitlab emptyWorld).1
        = .error (.wrapError "failed to fetch remote \"github\": authentication required"
            (.other "authentication required")) ∧
      (CreateFork lockedEnv github gitlab emptyWorld).2.fs.lookup "./sandbox/fork"
        = some registeredRepo ∧
      (goodEnv.fetch github.URL ⟨github.Username, github.Password⟩).toOption.map Advertised.heads
        = some [("master", "c2")] ∧
      ∃ f w, CreateFork goodEnv github gitlab (CreateFork lockedEnv github gitlab emptyWorld).2
          = (.ok f, w) ∧
        f.repo.Reference f.RemoteA.ReferenceName = .error .ErrReferenceNotFound ∧
        getRemoteHead f.RemoteA f.repo
          = .error (.errorString "failed to resolve branch \"github/master\"") ∧
        getRemoteHead f.RemoteB f.repo = .ok commit1 ∧
        f.DiffRemotes = .error (.errorString "failed to resolve branch \"github/master\"") :=
  ⟨rfl, rfl, rfl, _, _, rfl, rfl, rfl, rfl, rfl⟩

/-- C3: once storage is open, if `fetchRemote` of remote A fails with an error
other than "remote already exists", `CreateFork` returns no Fork and an error
that wraps the cause and carries A's name, the repository is left as that
fetch left it (remote B is not touched) and its branch configuration is the
initial one; if A passes and `fetchRemote` of remote B fails in that way, the
error wraps the cause and carries B's name, and the branch configuration is
again the initial one. -/
theorem createFork_fetch_failure (env : Env) (remoteA remoteB : Remote) (w w0 : World)
    (repo0 : Repository) (ho : openOrInit env w = (.ok repo0, w0)) :
    (∀ e, (fetchRemote env remoteA repo0).1 = some e → e ≠ .ErrRemoteExists →
      CreateFork env remoteA remoteB w
        = (.error (.wrapError ("failed to fetch remote \"" ++ remoteA.Name ++ "\": " ++ e.Error) e),
            w0.store "./sandbox/fork" (fetchRemote env remoteA repo0).2) ∧
      (fetchRemote env remoteA repo0).2.Branches = repo0.Branches ∧
      (remoteB.Name ≠ remoteA.Name →
        (fetchRemote env remoteA repo0).2.Remotes.lookup remoteB.Name
          = repo0.Remotes.lookup remoteB.Name)) ∧
    (∀ e, ((fetchRemote env remoteA repo0).1 = none ∨
          (fetchRemote env remoteA repo0).1 = some .ErrRemoteExists) →
      (fetchRemote env remoteB (fetchRemote env remoteA repo0).2).1 = some e →
      e ≠ .ErrRemoteExists →
      CreateFork env remoteA remoteB w
        = (.error (.wrapError ("failed to fetch remote \"" ++ remoteB.Name ++ "\": " ++ e.Error) e),
            w0.store "./sandbox/fork" (fetchRemote env remoteB (fetchRemote env remoteA repo0).2).2) ∧
      (fetchRemote env remoteB (fetchRemote env remoteA repo0).2).2.Branches = repo0.Branches) := by
  constructor
  · intro e he hne
    refine ⟨?_, fetchRemote_branches env remoteA repo0,
      fun hn => fetchRemote_other env remoteA repo0 remoteB.Name hn⟩
    rw [createFork_eq env remoteA remoteB w w0 repo0 ho, he]
    simp [Option.filter, hne, errorf_fetch]
  · intro e hA he hne
    refine ⟨?_, by rw [fetchRemote_branches, fetchRemote_branches]⟩
    rw [createFork_eq env remoteA remoteB w w0 repo0 ho]
    have hfA : (fetchRemote env remoteA repo0).1.filter (· ≠ .ErrRemoteExists) = none := by
      rcases hA with hA | hA <;> rw [hA] <;> simp [Option.filter]
    rw [hfA]
    simp only
    rw [he]
    simp [Option.filter, hne, errorf_fetch]

theorem createFork_fetch_failure_witness :
    (openOrInit lockedEnv emptyWorld = (.ok emptyRepo, emptyWorld.store "./sandbox/fork" emptyRepo) ∧
      (fetchRemote lockedEnv github emptyRepo).1 = some (.other "authentication required") ∧
      Err.other "authentication required" ≠ .ErrRemoteExists ∧
      CreateFork lockedEnv github gitlab emptyWorld
        = (.error (.wrapError ("failed to fetch remote \"" ++ github.Name ++ "\": "
              ++ (Err.other "authentication required").Error) (.other "authentication required")),
            (emptyWorld.store "./sandbox/fork" emptyRepo).store "./sandbox/fork"
              (fetchRemote lockedEnv github emptyRepo).2) ∧
      (fetchRemote lockedEnv github emptyRepo).2.Branches = emptyRepo.Branches ∧
      (gitlab.Name ≠ github.Name →
        (fetchRemote lockedEnv github emptyRepo).2.Remotes.lookup gitlab.Name
          = emptyRepo.Remotes.lookup gitlab.Name)) ∧
    (openOrInit halfLockedEnv emptyWorld
        = (.ok emptyRepo, emptyWorld.store "./sandbox/fork" emptyRepo) ∧
      (fetchRemote halfLockedEnv github emptyRepo).1 = none ∧
      (fetchRemote halfLockedEnv gitlab (fetchRemote halfLockedEnv github emptyRepo).2).1
        = some (.other "authentication required") ∧
      CreateFork halfLockedEnv github gitlab emptyWorld
        = (.error (.wrapError ("failed to fetch remote \"" ++ gitlab.Name ++ "\": "
              ++ (Err.other "authentication required").Error) (.other "authentication required")),
            (emptyWorld.store "./sandbox/fork" emptyRepo).store "./sandbox/fork"
              (fetchRemote halfLockedEnv gitlab (fetchRemote halfLockedEnv github emptyRepo).2).2) ∧
      (fetchRemote halfLockedEnv gitlab (fetchRemote halfLockedEnv github emptyRepo).2).2.Branches
        = emptyRepo.Branches) :=
  ⟨⟨rfl, rfl, by decide,
      (createFork_fetch_failure lockedEnv github gitlab emptyWorld _ emptyRepo rfl).1
        (.other "authentication required") rfl (by decide)⟩,
    ⟨rfl, rfl, rfl,
      (createFork_fetch_failure halfLockedEnv github gitlab emptyWorld _ emptyRepo rfl).2
        (.other "authentication required") (Or.inl rfl) rfl (by decide)⟩⟩

/-- C4, as stated, fails: with GitHub registered under the very URL of the
descriptor, `fetchRemote` returns the error "remote already exists", leaves
the repository as it was and fetches nothing: the tracking reference stays
missing although the network advertises the branch tip. -/
theorem fetchRemote_registered_errors :
    registeredRepo.Remotes.lookup github.Name
        = some { Name := github.Name, URLs := [github.URL] } ∧
      fetchRemote goodEnv github registeredRepo = (some .ErrRemoteExists, registeredRepo) ∧
      (goodEnv.fetch github.URL ⟨github.Username, github.Password⟩).toOption.map Advertised.heads
        = some [("master", "c2")] ∧
      (fetchRemote goodEnv github registeredRepo).2.Reference github.ReferenceName
        = .error .ErrReferenceNotFound :=
  ⟨rfl, rfl, rfl, rfl⟩

/-- C4, amended: for a descriptor with a non-empty name and an open repository
in which that name is registered with the descriptor's URL, `fetchRemote`
returns the error `ErrRemoteExists`; `CreateFork` treats it as non-fatal and
goes on: with the descriptor as remote A or as remote B, once the other
remote's `fetchRemote` returns nil or `ErrRemoteExists` and `CreateBranch`
succeeds, `CreateFork` returns a Fork and no error. -/
theorem fetchRemote_registered_spec (env : Env) (remote other : Remote) (w w0 : World)
    (repo0 : Repository) (ho : openOrInit env w = (.ok repo0, w0)) (hn : remote.Name ≠ "")
    (hreg : repo0.Remotes.lookup remote.Name = some { Name := remote.Name, URLs := [remote.URL] }) :
    (fetchRemote env remote repo0).1 = some .ErrRemoteExists ∧
    (∀ repo1,
      ((fetchRemote env other (fetchRemote env remote repo0).2).1 = none ∨
        (fetchRemote env other (fetchRemote env remote repo0).2).1 = some .ErrRemoteExists) →
      (fetchRemote env other (fetchRemote env remote repo0).2).2.CreateBranch
          { Name := other.Branch, Remote := other.Name, Merge := "refs/heads/" ++ other.Branch }
        = (none, repo1) →
      CreateFork env remote other w
        = (.ok { RemoteA := remote, RemoteB := other, repo := repo1 },
            w0.store "./sandbox/fork" repo1)) ∧
    (∀ repo1,
      ((fetchRemote env other repo0).1 = none ∨
        (fetchRemote env other repo0).1 = some .ErrRemoteExists) →
      (fetchRemote env remote (fetchRemote env other repo0).2).2.CreateBranch
          { Name := remote.Branch, Remote := remote.Name, Merge := "refs/heads/" ++ remote.Branch }
        = (none, repo1) →
      CreateFork env other remote w
        = (.ok { RemoteA := other, RemoteB := remote, repo := repo1 },
            w0.store "./sandbox/fork" repo1)) := by
  have hpass : ∀ (r : Remote) (rp : Repository),
      ((fetchRemote env r rp).1 = none ∨ (fetchRemote env r rp).1 = some .ErrRemoteExists) →
      (fetchRemote env r rp).1.filter (· ≠ .ErrRemoteExists) = none := by
    intro r rp h
    rcases h with h | h <;> rw [h] <;> simp [Option.filter]
  have h1 := fetchRemote_registered env remote repo0 hn _ hreg
  refine ⟨by rw [h1], ?_, ?_⟩
  · intro repo1 hB hc
    rw [createFork_eq env remote other w w0 repo0 ho,
      hpass remote repo0 (Or.inr (by rw [h1]))]
    simp only
    rw [hpass other _ hB]
    simp only
    rw [hc]
  · intro repo1 hA hc
    obtain ⟨x, hx⟩ := fetchRemote_keeps env other repo0 remote.Name ⟨_, hreg⟩
    have h2 := fetchRemote_registered env remote (fetchRemote env other repo0).2 hn x hx
    rw [createFork_eq env other remote w w0 repo0 ho, hpass other repo0 hA]
    simp only
    rw [hpass remote _ (Or.inr (by rw [h2]))]
    simp only
    rw [hc]

theorem fetchRemote_registered_spec_witness :
    openOrInit goodEnv registeredWorld = (.ok registeredRepo, registeredWorld) ∧
      github.Name ≠ "" ∧
      registeredRepo.Remotes.lookup github.Name
        = some { Name := github.Name, URLs := [github.URL] } ∧
      (fetchRemote goodEnv github registeredRepo).1 = some .ErrRemoteExists ∧
      (fetchRemote goodEnv gitlab (fetchRemote goodEnv github registeredRepo).2).1 = none ∧
      (∃ f, CreateFork goodEnv github gitlab registeredWorld
          = (.ok f, registeredWorld.store "./sandbox/fork" f.repo) ∧
        f.RemoteA = github ∧ f.RemoteB = gitlab) ∧
      (fetchRemote goodEnv gitlab registeredRepo).1 = none ∧
      (∃ f, CreateFork goodEnv gitlab github registeredWorld
          = (.ok f, registeredWorld.store "./sandbox/fork" f.repo) ∧
        f.RemoteA = gitlab ∧ f.RemoteB = github) :=
  ⟨rfl, by decide, rfl,
    (fetchRemote_registered_spec goodEnv github gitlab registeredWorld registeredWorld
      registeredRepo rfl (by decide) rfl).1,
    rfl,
    ⟨_, (fetchRemote_registered_spec goodEnv github gitlab registeredWorld registeredWorld
      registeredRepo rfl (by decide) rfl).2.1 _ (Or.inl rfl) rfl, rfl, rfl⟩,
    rfl,
    ⟨_, (fetchRemote_registered_spec goodEnv github gitlab registeredWorld registeredWorld
      registeredRepo rfl (by decide) rfl).2.2 _ (Or.inl rfl) rfl, rfl, rfl⟩⟩

theorem getRemoteHead_missing (remote : Remote) (repo : Repository) (e : Err)
    (h : repo.Reference remote.ReferenceName = .error e) :
    getRemoteHead remote repo = .error (.errorString
      ("failed to resolve branch \"" ++ (remote.Name ++ "/" ++ remote.Branch) ++ "\"")) := by
  unfold getRemoteHead
  rw [h, errorf_branch, string_eq]

theorem getRemoteHead_unloadable (remote : Remote) (repo : Repository) (hash : String) (e : Err)
    (h : repo.Reference remote.ReferenceName = .ok hash) (hc : repo.CommitObject hash = .error e) :
    getRemoteHead remote repo = .error (.errorString
      ("failed to resolve commit for \"" ++ (remote.Name ++ "/" ++ remote.Branch) ++ "\"")) := by
  unfold getRemoteHead
  rw [h]
  simp only
  rw [hc, errorf_commit, string_eq]

/-- C7: `DiffRemotes` resolves remote A's tip, then remote B's, and stops at the
first failure: a missing reference gives the error
"failed to resolve branch" with the remote's name/branch, an object that does
not load as a commit gives the different error "failed to resolve commit for"
with the remote's name/branch, and a patch is returned only when both tips
resolve to commits. -/
theorem diffRemotes_errors (f : Fork) :
    (∀ e, f.repo.Reference f.RemoteA.ReferenceName = .error e →
      f.DiffRemotes = .error (.errorString
        ("failed to resolve branch \"" ++ (f.RemoteA.Name ++ "/" ++ f.RemoteA.Branch) ++ "\""))) ∧
    (∀ hash e, f.repo.Reference f.RemoteA.ReferenceName = .ok hash →
      f.repo.CommitObject hash = .error e →
      f.DiffRemotes = .error (.errorString
        ("failed to resolve commit for \"" ++ (f.RemoteA.Name ++ "/" ++ f.RemoteA.Branch) ++ "\""))) ∧
    (∀ tipA e, getRemoteHead f.RemoteA f.repo = .ok tipA →
      f.repo.Reference f.RemoteB.ReferenceName = .error e →
      f.DiffRemotes = .error (.errorString
        ("failed to resolve branch \"" ++ (f.RemoteB.Name ++ "/" ++ f.RemoteB.Branch) ++ "\""))) ∧
    (∀ tipA hash e, getRemoteHead f.RemoteA f.repo = .ok tipA →
      f.repo.Reference f.RemoteB.ReferenceName = .ok hash →
      f.repo.CommitObject hash = .error e →
      f.DiffRemotes = .error (.errorString
        ("failed to resolve commit for \"" ++ (f.RemoteB.Name ++ "/" ++ f.RemoteB.Branch) ++ "\""))) ∧
    (∀ p, f.DiffRemotes = .ok p →
      ∃ tipA tipB, getRemoteHead f.RemoteA f.repo = .ok tipA ∧
        getRemoteHead f.RemoteB f.repo = .ok tipB) ∧
    (∀ r1 r2 : Remote,
      Err.errorString ("failed to resolve branch \"" ++ (r1.Name ++ "/" ++ r1.Branch) ++ "\"")
        ≠ .errorString ("failed to resolve commit for \"" ++ (r2.Name ++ "/" ++ r2.Branch) ++ "\"")) := by
  refine ⟨?_, ?_, ?_, ?_, ?_, ?_⟩
  · intro e h
    unfold Fork.DiffRemotes
    rw [getRemoteHead_missing _ _ e h]
  · intro hash e h hc
    unfold Fork.DiffRemotes
    rw [getRemoteHead_unloadable _ _ hash e h hc]
  · intro tipA e hA h
    unfold Fork.DiffRemotes
    rw [hA]
    simp only
    rw [getRemoteHead_missing _ _ e h]
  · intro tipA hash e hA h hc
    unfold Fork.DiffRemotes
    rw [hA]
    simp only
    rw [getRemoteHead_unloadable _ _ hash e h hc]
  · intro p hp
    unfold Fork.DiffRemotes at hp
    cases hA : getRemoteHead f.RemoteA f.repo with
    | error e => rw [hA] at hp; simp at hp
    | ok tipA =>
      rw [hA] at hp
      simp only at hp
      cases hB : getRemoteHead f.RemoteB f.repo with
      | error e => rw [hB] at hp; simp at hp
      | ok tipB => exact ⟨tipA, tipB, rfl, rfl⟩
  · intro r1 r2 h
    injection h with h
    have hd := congrArg String.data h
    simp at hd

theorem diffRemotes_errors_witness :
    ((Fork.mk github gitlab registeredRepo).repo.Reference github.ReferenceName
        = .error .ErrReferenceNotFound ∧
      (Fork.mk github gitlab registeredRepo).DiffRemotes = .error (.errorString
        ("failed to resolve branch \"" ++ (github.Name ++ "/" ++ github.Branch) ++ "\""))) ∧
    ((Fork.mk github gitlab blobRepo).repo.Reference github.ReferenceName = .ok "c2" ∧
      (Fork.mk github gitlab blobRepo).repo.CommitObject "c2" = .error .ErrObjectNotFound ∧
      (Fork.mk github gitlab blobRepo).DiffRemotes = .error (.errorString
        ("failed to resolve commit for \"" ++ (github.Name ++ "/" ++ github.Branch) ++ "\""))) ∧
    ((Fork.mk gitlab github blobRepo).repo.Reference github.ReferenceName = .ok "c2" ∧
      getRemoteHead gitlab blobRepo = .ok commit1 ∧
      (Fork.mk gitlab github blobRepo).DiffRemotes = .error (.errorString
        ("failed to resolve commit for \"" ++ (github.Name ++ "/" ++ github.Branch) ++ "\""))) ∧
    (sampleFork.DiffRemotes = .ok [{ From := none, To := some ("x.txt", "blob-x1") }] ∧
      ∃ tipA tipB, getRemoteHead sampleFork.RemoteA sampleFork.repo = .ok tipA ∧
        getRemoteHead sampleFork.RemoteB sampleFork.repo = .ok tipB) :=
  ⟨⟨rfl, (diffRemotes_errors (Fork.mk github gitlab registeredRepo)).1 _ rfl⟩,
    ⟨rfl, rfl, (diffRemotes_errors (Fork.mk github gitlab blobRepo)).2.1 "c2" _ rfl rfl⟩,
    ⟨rfl, rfl,
      (diffRemotes_errors (Fork.mk gitlab github blobRepo)).2.2.2.1 commit1 "c2" _ rfl rfl rfl⟩,
    ⟨rfl, (diffRemotes_errors sampleFork).2.2.2.2.1 _ rfl⟩⟩

/-- The head of a remote, read off the repository state: the reference
`refs/remotes/name/branch` holds a hash and the object under it is a commit. -/
theorem getRemoteHead_resolved (remote : Remote) (repo : Repository) (hash : String)
    (tip : Commit)
    (hr : repo.refs.lookup ("refs/remotes/" ++ remote.Name ++ "/" ++ remote.Branch) = some hash)
    (hc : repo.objects.lookup hash = some (.commit tip)) :
    getRemoteHead remote repo = .ok tip := by
  unfold getRemoteHead Repository.Reference
  rw [referenceName_eq, hr]
  simp only [Repository.CommitObject, hc]

/-- A file a patch adds is in the target's tree and at no path of the base's. -/
theorem patch_added (base target : Commit) (p : List FilePatch) (fp : FilePatch)
    (h : base.Patch target = .ok p) (hm : fp ∈ p) (hf : fp.From = none) :
    ∃ pb, fp.To = some pb ∧ pb ∈ target.Tree ∧ base.Tree.lookup pb.1 = none := by
  simp only [Commit.Patch, Except.ok.injEq] at h
  subst h
  rcases List.mem_append.mp hm with hm | hm
  · obtain ⟨pb, _, hpb⟩ := List.mem_filterMap.mp hm
    cases hl : target.Tree.lookup pb.1 with
    | none => rw [hl] at hpb; simp at hpb; subst hpb; simp at hf
    | some b =>
      rw [hl] at hpb
      by_cases e : pb.2 = b
      · simp [e] at hpb
      · simp [e] at hpb; subst hpb; simp at hf
  · obtain ⟨pb, hin, hpb⟩ := List.mem_filterMap.mp hm
    cases hl : base.Tree.lookup pb.1 with
    | none => rw [hl] at hpb; simp at hpb; subst hpb; exact ⟨pb, rfl, hin, hl⟩
    | some b => rw [hl] at hpb; simp at hpb

/-- A file a patch deletes is in the base's tree and at no path of the target's. -/
theorem patch_deleted (base target : Commit) (p : List FilePatch) (fp : FilePatch)
    (h : base.Patch target = .ok p) (hm : fp ∈ p) (ht : fp.To = none) :
    ∃ pb, fp.From = some pb ∧ pb ∈ base.Tree ∧ target.Tree.lookup pb.1 = none := by
  simp only [Commit.Patch, Except.ok.injEq] at h
  subst h
  rcases List.mem_append.mp hm with hm | hm
  · obtain ⟨pb, hin, hpb⟩ := List.mem_filterMap.mp hm
    cases hl : target.Tree.lookup pb.1 with
    | none => rw [hl] at hpb; simp at hpb; subst hpb; exact ⟨pb, rfl, hin, hl⟩
    | some b =>
      rw [hl] at hpb
      by_cases e : pb.2 = b
      · simp [e] at hpb
      · simp [e] at hpb; subst hpb; simp at ht
  · obtain ⟨pb, _, hpb⟩ := List.mem_filterMap.mp hm
    cases hl : base.Tree.lookup pb.1 with
    | none => rw [hl] at hpb; simp at hpb; subst hpb; simp at ht
    | some b => rw [hl] at hpb; simp at hpb

/-- C8: when, in the Fork's repository, the tracking reference of remote A
holds a hash whose object is the commit `tipA` and the tracking reference of
remote B holds a hash whose object is the commit `tipB`, `DiffRemotes` returns
the patch leading from `tipB` (the base) to `tipA` (the target): every file
the patch adds is a file of `tipA` at a path `tipB` lacks, every file it
deletes is a file of `tipB` at a path `tipA` lacks, and whenever the two
directions differ the result is not the patch from `tipA` to `tipB`. -/
theorem diffRemotes_direction (f : Fork) (hashA hashB : String) (tipA tipB : Commit)
    (hrA : f.repo.refs.lookup ("refs/remotes/" ++ f.RemoteA.Name ++ "/" ++ f.RemoteA.Branch)
      = some hashA)
    (hcA : f.repo.objects.lookup hashA = some (.commit tipA))
    (hrB : f.repo.refs.lookup ("refs/remotes/" ++ f.RemoteB.Name ++ "/" ++ f.RemoteB.Branch)
      = some hashB)
    (hcB : f.repo.objects.lookup hashB = some (.commit tipB)) :
    f.DiffRemotes = tipB.Patch tipA ∧
      (∃ p, f.DiffRemotes = .ok p ∧
        (∀ fp ∈ p, fp.From = none →
          ∃ pb, fp.To = some pb ∧ pb ∈ tipA.Tree ∧ tipB.Tree.lookup pb.1 = none) ∧
        (∀ fp ∈ p, fp.To = none →
          ∃ pb, fp.From = some pb ∧ pb ∈ tipB.Tree ∧ tipA.Tree.lookup pb.1 = none)) ∧
      (tipA.Patch tipB ≠ tipB.Patch tipA → f.DiffRemotes ≠ tipA.Patch tipB) := by
  have h : f.DiffRemotes = tipB.Patch tipA := by
    unfold Fork.DiffRemotes
    rw [getRemoteHead_resolved f.RemoteA f.repo hashA tipA hrA hcA]
    simp only
    rw [getRemoteHead_resolved f.RemoteB f.repo hashB tipB hrB hcB]
  refine ⟨h, ?_, fun hne e => hne (by rw [← e, h])⟩
  cases hp : tipB.Patch tipA with
  | error e => simp [Commit.Patch] at hp
  | ok p =>
    exact ⟨p, by rw [h, hp], fun fp hm hf => patch_added tipB tipA p fp hp hm hf,
      fun fp hm ht => patch_deleted tipB tipA p fp hp hm ht⟩

theorem patch_sample_ne : commit2.Patch commit1 ≠ commit1.Patch commit2 := by
  intro h
  simp [Commit.Patch, commit1, commit2, List.lookup] at h

theorem diffRemotes_direction_witness :
    sampleFork.repo.refs.lookup
        ("refs/remotes/" ++ sampleFork.RemoteA.Name ++ "/" ++ sampleFork.RemoteA.Branch)
        = some "c2" ∧
      sampleFork.repo.objects.lookup "c2" = some (.commit commit2) ∧
      sampleFork.repo.refs.lookup
        ("refs/remotes/" ++ sampleFork.RemoteB.Name ++ "/" ++ sampleFork.RemoteB.Branch)
        = some "c1" ∧
      sampleFork.repo.objects.lookup "c1" = some (.commit commit1) ∧
      commit1.Patch commit2 = .ok [{ From := none, To := some ("x.txt", "blob-x1") }] ∧
      commit2.Patch commit1 = .ok [{ From := some ("x.txt", "blob-x1"), To := none }] ∧
      sampleFork.DiffRemotes = commit1.Patch commit2 ∧
      sampleFork.DiffRemotes ≠ commit2.Patch commit1 :=
  ⟨rfl, rfl, rfl, rfl, rfl, rfl,
    (diffRemotes_direction sampleFork "c2" "c1" commit2 commit1 rfl rfl rfl rfl).1,
    (diffRemotes_direction sampleFork "c2" "c1" commit2 commit1 rfl rfl rfl rfl).2.2
      patch_sample_ne⟩

end Kagami
